import Mathlib

/-!
Shallow embedding of the `employee_infoCRUD` Flask backend
(`backend_flask`: `routes/auth.py`, `routes/employee.py`,
`utils/validators.py`) and proofs about it.

The document store (MongoDB via Flask-PyMongo) is modelled as in-memory
lists of documents kept in insertion order; `find_one` is first match,
`update_one` / `delete_one` act on the first matching document and report
`matched_count` / `deleted_count`.  `ObjectId` values are modelled as the
natural number encoded by their 24 hex digits; `str(ObjectId)` is the
24-character lowercase hex rendering.  JSON scalar values that can reach
`int(...)` are modelled by `JVal` (integers, strings, booleans, null);
Python's `int(...)` conversion, including underscore digit grouping and
surrounding whitespace, is `pyInt`, with `none` standing for a raised
`ValueError`/`TypeError`.  bcrypt hashing, bcrypt verification and JWT
token minting are opaque to the handlers and are passed in as function
parameters.
-/

namespace EmpCrud

/-! ## Character helpers -/

def isAsciiAlnum (c : Char) : Bool := c.isAlpha || c.isDigit

/-- Characters allowed in the interior of the email local part:
`[a-zA-Z0-9._%+-]` from the regex in `validate_email_format`. -/
def localMidChar (c : Char) : Bool :=
  isAsciiAlnum c || c = '.' || c = '_' || c = '%' || c = '+' || c = '-'

/-- Does the character list contain two consecutive dots (the substring
`..`)?  This is what the negative lookahead discards. -/
def hasDoubleDot : List Char → Bool
  | [] => false
  | [_] => false
  | a :: b :: rest => (a = '.' && b = '.') || hasDoubleDot (b :: rest)

/-! ## `utils/validators.py` -/

/-- Check of the local part against
`[a-zA-Z0-9](?:[a-zA-Z0-9._%+-]{4,28})[a-zA-Z0-9]`:
nonempty, first and last characters alphanumeric, interior characters in
the middle class (the length bounds are checked separately). -/
def localShapeOk (lp : List Char) : Bool :=
  match lp with
  | [] => false
  | c0 :: rest =>
    match rest.getLast? with
    | none => false
    | some cl => isAsciiAlnum c0 && isAsciiAlnum cl && rest.dropLast.all localMidChar

/-- `validate_email_format` (utils/validators.py): full match of
`^(?!.*\.\.)[a-zA-Z0-9](?:[a-zA-Z0-9._%+-]{4,28})[a-zA-Z0-9]@gmail\.com$`.
The string decomposes uniquely as local part plus the literal suffix
`@gmail.com` (the middle class has no `@`), the local part has
`1 + (4..28) + 1 = 6..30` characters of the shape above, and the whole
string has no two consecutive dots. -/
def validate_email_format (email : String) : Bool :=
  let cs := email.data
  let suffix := "@gmail.com".data
  !hasDoubleDot cs &&
  decide (suffix.length ≤ cs.length) &&
  decide (cs.drop (cs.length - suffix.length) = suffix) &&
  (let lp := cs.take (cs.length - suffix.length)
   decide (6 ≤ lp.length) && decide (lp.length ≤ 30) && localShapeOk lp)

/-- `validate_password`: minimum 6 characters. -/
def validate_password (password : String) : Bool :=
  decide (6 ≤ password.length)

/-- Characters allowed by `validate_name` / `validate_text_field`:
`[A-Za-z ]`. -/
def nameChar (c : Char) : Bool := c.isAlpha || c = ' '

/-- `validate_name`: full match of `[A-Za-z ]{2,50}`. -/
def validate_name (name : String) : Bool :=
  name.data.all nameChar && decide (2 ≤ name.length) && decide (name.length ≤ 50)

/-- `validate_text_field`: full match of `[A-Za-z ]{2,50}` (departments and
designations). -/
def validate_text_field (value : String) : Bool :=
  value.data.all nameChar && decide (2 ≤ value.length) && decide (value.length ≤ 50)

/-! ## JSON scalars and Python `int(...)` -/

/-- JSON scalar values as delivered by `request.get_json()` for fields fed
to `int(...)` (the `salary` field). -/
inductive JVal where
  | jint (n : Int)
  | jstr (s : String)
  | jbool (b : Bool)
  | jnull
  deriving DecidableEq, Repr

/-- Digit run of a Python integer literal after the sign: decimal digits
with single underscores allowed between digits (accumulator version). -/
def pyDigitsAux : List Char → Nat → Option Nat
  | [], acc => some acc
  | '_' :: c :: rest, acc =>
    if c.isDigit then pyDigitsAux rest (acc * 10 + (c.toNat - 48)) else none
  | c :: rest, acc =>
    if c.isDigit then pyDigitsAux rest (acc * 10 + (c.toNat - 48)) else none

/-- Nonempty digit run (no leading underscore). -/
def pyDigits : List Char → Option Nat
  | [] => none
  | c :: rest => if c.isDigit then pyDigitsAux rest (c.toNat - 48) else none

/-- Strip whitespace from both ends of a character list, as `int(str)`
does before parsing. -/
def stripWs (cs : List Char) : List Char :=
  ((cs.dropWhile Char.isWhitespace).reverse.dropWhile Char.isWhitespace).reverse

/-- Python `int` applied to a string: optional surrounding whitespace,
optional sign, nonempty digit run; `none` models the raised `ValueError`. -/
def pyIntOfStr (s : String) : Option Int :=
  match stripWs s.data with
  | '+' :: rest => (pyDigits rest).map (fun n => (n : Int))
  | '-' :: rest => (pyDigits rest).map (fun n => -(n : Int))
  | cs => (pyDigits cs).map (fun n => (n : Int))

/-- Python `int(...)` on a JSON scalar; `none` models a raised exception
(`int(None)` raises `TypeError`, unparsable strings raise `ValueError`,
`int(True) = 1`, `int(False) = 0`). -/
def pyInt : JVal → Option Int
  | .jint n => some n
  | .jstr s => pyIntOfStr s
  | .jbool b => some (if b then 1 else 0)
  | .jnull => none

/-- `validate_salary`: `try: salary = int(salary); return salary > 0`
with any exception giving `False`. -/
def validate_salary (salary : JVal) : Bool :=
  match pyInt salary with
  | some n => decide (0 < n)
  | none => false

/-! ## ObjectId -/

def isHexChar (c : Char) : Bool :=
  c.isDigit || ('a' ≤ c && c ≤ 'f') || ('A' ≤ c && c ≤ 'F')

def hexCharVal (c : Char) : Nat :=
  if c.isDigit then c.toNat - 48
  else if 'a' ≤ c then c.toNat - 87
  else c.toNat - 55

def hexValue (cs : List Char) : Nat :=
  cs.foldl (fun a c => a * 16 + hexCharVal c) 0

/-- `bson.ObjectId(s)` on a string: accepts exactly 24 hex characters
(case insensitive) and yields the 12-byte value they encode; `none`
models the raised `InvalidId` exception. -/
def objectId (s : String) : Option Nat :=
  if s.length = 24 && s.data.all isHexChar then some (hexValue s.data) else none

def hexDigitChar (n : Nat) : Char :=
  if n < 10 then Char.ofNat (48 + n) else Char.ofNat (87 + n)

/-- Big-endian fixed-width lowercase hex rendering (`k` digits). -/
def toHexFixed (k : Nat) (n : Nat) : List Char :=
  match k with
  | 0 => []
  | k + 1 => toHexFixed k (n / 16) ++ [hexDigitChar (n % 16)]

/-- `str(ObjectId)`: the 24-character lowercase hex string. -/
def oidStr (n : Nat) : String := String.mk (toHexFixed 24 n)

/-! ## Documents and the store -/

structure EmpDoc where
  oid : Nat
  name : String
  email : String
  department : String
  designation : String
  salary : Int
  createdBy : String
  deriving DecidableEq, Repr

structure UserDoc where
  oid : Nat
  name : String
  email : String
  password : String
  deriving DecidableEq, Repr

/-- The document store: the `users` and `employees` collections in
insertion order, plus the supply of fresh ObjectIds (`nextId` is the next
generated id, modelling that MongoDB never reissues an id). -/
structure DB where
  users : List UserDoc
  employees : List EmpDoc
  nextId : Nat
  deriving DecidableEq, Repr

/-- `update_one(filter, {"$set": ...})`: rewrite the first matching
document, returning the new collection and `matched_count`. -/
def update_one (es : List EmpDoc) (p : EmpDoc → Bool) (f : EmpDoc → EmpDoc) :
    List EmpDoc × Nat :=
  match es with
  | [] => ([], 0)
  | e :: rest =>
    if p e then (f e :: rest, 1)
    else
      let r := update_one rest p f
      (e :: r.1, r.2)

/-- `delete_one(filter)`: remove the first matching document, returning
the new collection and `deleted_count`. -/
def delete_one (es : List EmpDoc) (p : EmpDoc → Bool) : List EmpDoc × Nat :=
  match es with
  | [] => ([], 0)
  | e :: rest =>
    if p e then (rest, 1)
    else
      let r := delete_one rest p
      (e :: r.1, r.2)

/-! ## Responses and request bodies -/

/-- Employee document as serialized by `get_employees`: the ObjectId
replaced by its string form. -/
structure EmpOut where
  idStr : String
  name : String
  email : String
  department : String
  designation : String
  salary : Int
  createdBy : String
  deriving DecidableEq, Repr

inductive RBody where
  | err (msg : String)
  | msg (m : String)
  | tokenName (token : String) (name : String)
  | emps (es : List EmpOut)
  deriving DecidableEq, Repr

structure Resp where
  status : Nat
  body : RBody
  deriving DecidableEq, Repr

/-- Body of a create/update employee request; `none` models an absent
key (`data.get(key, "")` then defaults to `""`), `salary` is
`data.get("salary")` with `jnull` for an absent key. -/
structure EmpBody where
  name : Option String
  email : Option String
  department : Option String
  designation : Option String
  salary : JVal
  deriving Repr

/-- Body of a register request (`data.get(key)`, no default). -/
structure RegBody where
  name : Option String
  email : Option String
  password : Option String
  deriving Repr

/-- Body of a login request. -/
structure LoginBody where
  email : Option String
  password : Option String
  deriving Repr

/-- `data.get(key, "").strip()`: strip whitespace from both ends. -/
def getField (o : Option String) : String := String.mk (stripWs (o.getD "").data)

/-- Python truthiness test `not x` for a possibly-missing string. -/
def falsy (o : Option String) : Bool :=
  match o with
  | none => true
  | some s => s.isEmpty

/-! ## `routes/employee.py` -/

/-- `create_employee` (POST /employees).  Validates the trimmed fields in
source order, rejects a duplicate `(email, createdBy)` pair, then inserts
the document with `salary` converted by `int(...)` and `createdBy` set to
the authenticated user. -/
def create_employee (db : DB) (user_id : String) (data : EmpBody) : Resp × DB :=
  let name := getField data.name
  let email := getField data.email
  let department := getField data.department
  let designation := getField data.designation
  let salary := data.salary
  if !validate_name name then (⟨400, .err "Invalid Name"⟩, db)
  else if !validate_email_format email then (⟨400, .err "Invalid Email"⟩, db)
  else if !validate_text_field department then (⟨400, .err "Invalid Department"⟩, db)
  else if !validate_text_field designation then (⟨400, .err "Invalid Role"⟩, db)
  else if !validate_salary salary then (⟨400, .err "Invalid Salary"⟩, db)
  else if (db.employees.find? (fun e => e.email == email && e.createdBy == user_id)).isSome then
    (⟨400, .err "Email already exists"⟩, db)
  else
    -- guarded by `validate_salary`, so `pyInt salary` is `some`
    let doc : EmpDoc :=
      { oid := db.nextId, name := name, email := email, department := department,
        designation := designation, salary := (pyInt salary).getD 0, createdBy := user_id }
    (⟨201, .msg "Employee Added"⟩,
     { db with employees := db.employees ++ [doc], nextId := db.nextId + 1 })

/-- Serialization loop of `get_employees`: `emp["_id"] = str(emp["_id"])`. -/
def serialize (e : EmpDoc) : EmpOut :=
  { idStr := oidStr e.oid, name := e.name, email := e.email,
    department := e.department, designation := e.designation,
    salary := e.salary, createdBy := e.createdBy }

/-- The list returned by `get_employees`:
`mongo.db.employees.find({"createdBy": user_id})`, ids stringified. -/
def get_employees_list (db : DB) (user_id : String) : List EmpOut :=
  (db.employees.filter (fun e => e.createdBy == user_id)).map serialize

/-- `get_employees` (GET /employees). -/
def get_employees (db : DB) (user_id : String) : Resp :=
  ⟨200, .emps (get_employees_list db user_id)⟩

/-- The `update_one` call made by `update_employee`: filter
`{"_id": ObjectId(id), "createdBy": user_id}`, `$set` of the five
validated fields (`salary` through `int(...)`). -/
def updatedEmps (db : DB) (user_id : String) (oid : Nat) (data : EmpBody) :
    List EmpDoc × Nat :=
  update_one db.employees (fun e => e.oid == oid && e.createdBy == user_id)
    (fun e =>
      { e with name := getField data.name, email := getField data.email,
               department := getField data.department,
               designation := getField data.designation,
               salary := (pyInt data.salary).getD 0 })

/-- `update_employee` (PUT /employees/<id>).  Validates the trimmed
fields in source order, then builds `ObjectId(id)` for the duplicate
check (an invalid id raises: result `none`), rejects when another
employee of the same user holds the target email, then rewrites the
document matching `(ObjectId(id), createdBy)`; zero matches give 403. -/
def update_employee (db : DB) (user_id : String) (id : String) (data : EmpBody) :
    Option (Resp × DB) :=
  if !validate_name (getField data.name) then some (⟨400, .err "Invalid Name"⟩, db)
  else if !validate_email_format (getField data.email) then
    some (⟨400, .err "Invalid Email"⟩, db)
  else if !validate_text_field (getField data.department) then
    some (⟨400, .err "Invalid Department"⟩, db)
  else if !validate_text_field (getField data.designation) then
    some (⟨400, .err "Invalid Role"⟩, db)
  else if !validate_salary data.salary then some (⟨400, .err "Invalid Salary"⟩, db)
  else
    match objectId id with
    | none => none
    | some oid =>
      if (db.employees.find? (fun e =>
            e.email == getField data.email && e.createdBy == user_id &&
              e.oid != oid)).isSome then
        some (⟨400, .err "Email already exists"⟩, db)
      else
        if (updatedEmps db user_id oid data).2 == 0 then
          some (⟨403, .err "Not authorized"⟩,
                { db with employees := (updatedEmps db user_id oid data).1 })
        else
          some (⟨200, .msg "Updated"⟩,
                { db with employees := (updatedEmps db user_id oid data).1 })

/-- The `delete_one` call made by `delete_employee`: filter
`{"_id": ObjectId(id), "createdBy": user_id}`. -/
def deletedEmps (db : DB) (user_id : String) (oid : Nat) : List EmpDoc × Nat :=
  delete_one db.employees (fun e => e.oid == oid && e.createdBy == user_id)

/-- `delete_employee` (DELETE /employees/<id>).  Builds `ObjectId(id)`
(an invalid id raises: result `none`) and removes the document matching
`(ObjectId(id), createdBy)`; zero deletions give 403. -/
def delete_employee (db : DB) (user_id : String) (id : String) :
    Option (Resp × DB) :=
  match objectId id with
  | none => none
  | some oid =>
    if (deletedEmps db user_id oid).2 == 0 then
      some (⟨403, .err "Not authorized"⟩,
            { db with employees := (deletedEmps db user_id oid).1 })
    else
      some (⟨200, .msg "Deleted"⟩,
            { db with employees := (deletedEmps db user_id oid).1 })

/-! ## `routes/auth.py` -/

/-- `register` (POST /register).  `hashpw` and `salt` stand for
`bcrypt.hashpw` and the fresh `bcrypt.gensalt()` of this request.  Checks
run in source order: truthiness of the three fields, email format,
password length, duplicate email; success inserts the user with the
hashed password and returns 201. -/
def register (hashpw : String → String → String) (salt : String)
    (db : DB) (data : RegBody) : Resp × DB :=
  if falsy data.name || falsy data.email || falsy data.password then
    (⟨400, .err "All fields required"⟩, db)
  else
    let name := data.name.getD ""
    let email := data.email.getD ""
    let password := data.password.getD ""
    if !validate_email_format email then (⟨400, .err "Invalid email format"⟩, db)
    else if !validate_password password then (⟨400, .err "Password must be 6+ chars"⟩, db)
    else if (db.users.find? (fun u => u.email == email)).isSome then
      (⟨400, .err "Email already exists"⟩, db)
    else
      (⟨201, .msg "Registered Successfully"⟩,
       { db with
         users := db.users ++
           [{ oid := db.nextId, name := name, email := email,
              password := hashpw password salt }],
         nextId := db.nextId + 1 })

/-- `login` (POST /login).  `checkpw` stands for `bcrypt.checkpw` and
`mkToken` for `create_access_token` on the string form of the user id.
The handler performs no store writes, so the store is passed through. -/
def login (checkpw : String → String → Bool) (mkToken : String → String)
    (db : DB) (data : LoginBody) : Resp × DB :=
  if falsy data.email || falsy data.password then
    (⟨400, .err "All fields required"⟩, db)
  else
    let email := data.email.getD ""
    let password := data.password.getD ""
    match db.users.find? (fun u => u.email == email) with
    | none => (⟨400, .err "Invalid credentials"⟩, db)
    | some user =>
      if !checkpw password user.password then (⟨400, .err "Invalid credentials"⟩, db)
      else (⟨200, .tokenName (mkToken (oidStr user.oid)) user.name⟩, db)

/-! ## Store lemmas -/

theorem update_one_of_all_false {es : List EmpDoc} {p : EmpDoc → Bool}
    {f : EmpDoc → EmpDoc} (h : ∀ e ∈ es, p e = false) :
    update_one es p f = (es, 0) := by
  induction es with
  | nil => rfl
  | cons e rest ih =>
    have he := h e (List.mem_cons_self e rest)
    have hr := ih (fun x hx => h x (List.mem_cons_of_mem e hx))
    simp [update_one, he, hr]

theorem update_one_found {xs ys : List EmpDoc} {d : EmpDoc} {p : EmpDoc → Bool}
    {f : EmpDoc → EmpDoc} (hxs : ∀ x ∈ xs, p x = false) (hd : p d = true) :
    update_one (xs ++ d :: ys) p f = (xs ++ f d :: ys, 1) := by
  induction xs with
  | nil => simp [update_one, hd]
  | cons x rest ih =>
    have hx := hxs x (List.mem_cons_self x rest)
    have hr := ih (fun y hy => hxs y (List.mem_cons_of_mem x hy))
    simp [update_one, hx, hr]

theorem update_one_snd_zero {es : List EmpDoc} {p : EmpDoc → Bool}
    {f : EmpDoc → EmpDoc} (h : (update_one es p f).2 = 0) :
    (update_one es p f).1 = es := by
  induction es with
  | nil => rfl
  | cons e rest ih =>
    by_cases he : p e
    · simp [update_one, he] at h
    · simp [update_one, he] at h ⊢
      exact ih h

theorem delete_one_of_all_false {es : List EmpDoc} {p : EmpDoc → Bool}
    (h : ∀ e ∈ es, p e = false) :
    delete_one es p = (es, 0) := by
  induction es with
  | nil => rfl
  | cons e rest ih =>
    have he := h e (List.mem_cons_self e rest)
    have hr := ih (fun x hx => h x (List.mem_cons_of_mem e hx))
    simp [delete_one, he, hr]

theorem delete_one_found {xs ys : List EmpDoc} {d : EmpDoc} {p : EmpDoc → Bool}
    (hxs : ∀ x ∈ xs, p x = false) (hd : p d = true) :
    delete_one (xs ++ d :: ys) p = (xs ++ ys, 1) := by
  induction xs with
  | nil => simp [delete_one, hd]
  | cons x rest ih =>
    have hx := hxs x (List.mem_cons_self x rest)
    have hr := ih (fun y hy => hxs y (List.mem_cons_of_mem x hy))
    simp [delete_one, hx, hr]

theorem delete_one_snd_zero {es : List EmpDoc} {p : EmpDoc → Bool}
    (h : (delete_one es p).2 = 0) :
    (delete_one es p).1 = es := by
  induction es with
  | nil => rfl
  | cons e rest ih =>
    by_cases he : p e
    · simp [delete_one, he] at h
    · simp [delete_one, he] at h ⊢
      exact ih h

/-! ## Hex serialization lemmas -/

theorem hexCharVal_hexDigitChar {n : Nat} (h : n < 16) :
    hexCharVal (hexDigitChar n) = n := by
  interval_cases n <;> decide

theorem hexValue_concat (xs : List Char) (c : Char) :
    hexValue (xs ++ [c]) = 16 * hexValue xs + hexCharVal c := by
  simp [hexValue, List.foldl_append, Nat.mul_comm]

theorem hexValue_toHexFixed (k n : Nat) :
    hexValue (toHexFixed k n) = n % 16 ^ k := by
  induction k generalizing n with
  | zero => simp [toHexFixed, hexValue, Nat.mod_one]
  | succ k ih =>
    rw [toHexFixed, hexValue_concat, ih,
      hexCharVal_hexDigitChar (Nat.mod_lt _ (by norm_num)),
      pow_succ, Nat.mul_comm (16 ^ k) 16, Nat.mod_mul]
    ring

theorem oidStr_inj {a b : Nat} (ha : a < 16 ^ 24) (hb : b < 16 ^ 24)
    (h : oidStr a = oidStr b) : a = b := by
  have hdata : toHexFixed 24 a = toHexFixed 24 b := congrArg String.data h
  have := congrArg hexValue hdata
  rwa [hexValue_toHexFixed, hexValue_toHexFixed,
    Nat.mod_eq_of_lt ha, Nat.mod_eq_of_lt hb] at this

/-! ## Double-dot lemmas -/

theorem hasDoubleDot_append_cons (xs : List Char) {y : Char} (ys : List Char)
    (hy : y ≠ '.') :
    hasDoubleDot (xs ++ y :: ys) = (hasDoubleDot xs || hasDoubleDot (y :: ys)) := by
  induction xs with
  | nil => simp [hasDoubleDot]
  | cons a t ih =>
    cases t with
    | nil => simp [hasDoubleDot, hy]
    | cons b t' =>
      simp only [List.cons_append] at ih ⊢
      rw [show hasDoubleDot (a :: b :: (t' ++ y :: ys)) =
            ((decide (a = '.') && decide (b = '.')) || hasDoubleDot (b :: (t' ++ y :: ys)))
          from rfl,
        ih,
        show hasDoubleDot (a :: b :: t') =
            ((decide (a = '.') && decide (b = '.')) || hasDoubleDot (b :: t')) from rfl,
        Bool.or_assoc]

/-! ## Claim C4: email format -/

/-- The email rule exactly as the specification words it (refinement
definition written from the spec, to be compared with
`validate_email_format` from the source): the string is a local part
followed by the literal domain `@gmail.com`; the local part is 6–30
characters total, its first and last characters are alphanumeric, its
interior characters are letters, digits, or `. _ % + -`, and it contains
no two consecutive dots. -/
def EmailClaimSpec (s : String) : Prop :=
  ∃ lp : List Char,
    s.data = lp ++ "@gmail.com".data ∧
    6 ≤ lp.length ∧ lp.length ≤ 30 ∧
    (∃ c0 mid cl, lp = c0 :: (mid ++ [cl]) ∧ isAsciiAlnum c0 = true ∧
      isAsciiAlnum cl = true ∧ mid.all localMidChar = true) ∧
    hasDoubleDot lp = false

theorem localShapeOk_iff (lp : List Char) :
    localShapeOk lp = true ↔
      ∃ c0 mid cl, lp = c0 :: (mid ++ [cl]) ∧ isAsciiAlnum c0 = true ∧
        isAsciiAlnum cl = true ∧ mid.all localMidChar = true := by
  cases lp with
  | nil =>
    simp only [localShapeOk]
    constructor
    · intro h; exact absurd h (by simp)
    · rintro ⟨c0, mid, cl, heq, -⟩; exact absurd heq (by simp)
  | cons c0 rest =>
    rcases hrest : rest.getLast? with _ | cl
    · have hnil : rest = [] := List.getLast?_eq_none_iff.mp hrest
      subst hnil
      constructor
      · intro h; exact absurd h (by simp [localShapeOk])
      · rintro ⟨c0', mid, cl', heq, -⟩
        injection heq with h1 h2
        exact absurd h2.symm (by simp)
    · have hsplit : rest.dropLast ++ [cl] = rest :=
        List.dropLast_append_getLast? cl (Option.mem_def.mpr hrest)
      constructor
      · intro h
        have h' : (isAsciiAlnum c0 && isAsciiAlnum cl && rest.dropLast.all localMidChar) = true := by
          simpa only [localShapeOk, hrest] using h
        simp only [Bool.and_eq_true] at h'
        exact ⟨c0, rest.dropLast, cl, by rw [hsplit], h'.1.1, h'.1.2, h'.2⟩
      · rintro ⟨c0', mid, cl', heq, hc0, hcl, hmid⟩
        injection heq with h1 h2
        subst h1
        subst h2
        rw [List.getLast?_concat] at hrest
        injection hrest with h4
        subst h4
        simp only [localShapeOk, List.getLast?_concat, List.dropLast_concat]
        simp [hc0, hcl, hmid]

theorem hasDoubleDot_append_suffix (lp : List Char) :
    hasDoubleDot (lp ++ ['@', 'g', 'm', 'a', 'i', 'l', '.', 'c', 'o', 'm']) =
      hasDoubleDot lp := by
  rw [hasDoubleDot_append_cons lp ['g', 'm', 'a', 'i', 'l', '.', 'c', 'o', 'm'] (by decide)]
  rw [show hasDoubleDot ['@', 'g', 'm', 'a', 'i', 'l', '.', 'c', 'o', 'm'] = false from by decide]
  exact Bool.or_false _

/-- C4: `validate_email_format` accepts a string iff the local part is
6–30 characters total, its first and last characters are alphanumeric,
its interior characters are letters, digits, or `. _ % + -`, it contains
no consecutive dots, and the domain is the single literal hosting domain
`gmail.com`. -/
theorem email_format_characterization (s : String) :
    validate_email_format s = true ↔ EmailClaimSpec s := by
  unfold validate_email_format EmailClaimSpec
  simp only [Bool.and_eq_true, Bool.not_eq_true', decide_eq_true_iff]
  constructor
  · rintro ⟨⟨⟨hdd, hlen⟩, hdrop⟩, ⟨h6, h30⟩, hshape⟩
    have hsplit : s.data =
        s.data.take (s.data.length - ['@', 'g', 'm', 'a', 'i', 'l', '.', 'c', 'o', 'm'].length)
          ++ ['@', 'g', 'm', 'a', 'i', 'l', '.', 'c', 'o', 'm'] := by
      conv_lhs => rw [← List.take_append_drop
        (s.data.length - ['@', 'g', 'm', 'a', 'i', 'l', '.', 'c', 'o', 'm'].length) s.data]
      rw [hdrop]
    refine ⟨s.data.take (s.data.length - ['@', 'g', 'm', 'a', 'i', 'l', '.', 'c', 'o', 'm'].length),
      hsplit, h6, h30, (localShapeOk_iff _).mp hshape, ?_⟩
    rw [hsplit, hasDoubleDot_append_suffix] at hdd
    exact hdd
  · rintro ⟨lp, hsplit, h6, h30, hex, hdd⟩
    rw [hsplit]
    have hlplen : lp.length =
        (lp ++ ['@', 'g', 'm', 'a', 'i', 'l', '.', 'c', 'o', 'm']).length -
          ['@', 'g', 'm', 'a', 'i', 'l', '.', 'c', 'o', 'm'].length := by
      simp
    refine ⟨⟨⟨?_, ?_⟩, List.drop_left' hlplen⟩, ?_, ?_⟩
    · rw [hasDoubleDot_append_suffix]; exact hdd
    · simp
    · rw [List.take_left' hlplen]; exact ⟨h6, h30⟩
    · rw [List.take_left' hlplen]; exact (localShapeOk_iff lp).mpr hex

/-! ## Handler shape lemmas -/

/-- The document `create_employee` inserts (and the full-field
replacement `update_employee` applies) for a request body, given the
integer `n` the salary converts to. -/
def mkDoc (db : DB) (user_id : String) (b : EmpBody) (n : Int) : EmpDoc :=
  { oid := db.nextId, name := getField b.name, email := getField b.email,
    department := getField b.department, designation := getField b.designation,
    salary := n, createdBy := user_id }

def createErrMsgs : List String :=
  ["Invalid Name", "Invalid Email", "Invalid Department", "Invalid Role",
   "Invalid Salary", "Email already exists"]

theorem create_employee_cases (db : DB) (uid : String) (data : EmpBody) :
    (∃ msg, msg ∈ createErrMsgs ∧
      create_employee db uid data = (⟨400, RBody.err msg⟩, db)) ∨
    (validate_salary data.salary = true ∧
     create_employee db uid data =
      (⟨201, RBody.msg "Employee Added"⟩,
       { db with
         employees := db.employees ++ [mkDoc db uid data ((pyInt data.salary).getD 0)],
         nextId := db.nextId + 1 })) := by
  simp only [create_employee]
  split
  · exact Or.inl ⟨_, by simp [createErrMsgs], rfl⟩
  · split
    · exact Or.inl ⟨_, by simp [createErrMsgs], rfl⟩
    · split
      · exact Or.inl ⟨_, by simp [createErrMsgs], rfl⟩
      · split
        · exact Or.inl ⟨_, by simp [createErrMsgs], rfl⟩
        · split
          · exact Or.inl ⟨_, by simp [createErrMsgs], rfl⟩
          · split
            · exact Or.inl ⟨_, by simp [createErrMsgs], rfl⟩
            · rename_i h1 h2 h3 h4 h5 h6
              exact Or.inr ⟨by simpa using h5, rfl⟩

theorem create_employee_success {db : DB} {uid : String} {data : EmpBody}
    (hn : validate_name (getField data.name) = true)
    (he : validate_email_format (getField data.email) = true)
    (hd : validate_text_field (getField data.department) = true)
    (hg : validate_text_field (getField data.designation) = true)
    (hs : validate_salary data.salary = true)
    (hdup : db.employees.find?
        (fun e => e.email == getField data.email && e.createdBy == uid) = none) :
    create_employee db uid data =
      (⟨201, RBody.msg "Employee Added"⟩,
       { db with
         employees := db.employees ++ [mkDoc db uid data ((pyInt data.salary).getD 0)],
         nextId := db.nextId + 1 }) := by
  simp [create_employee, hn, he, hd, hg, hs, hdup, mkDoc]

def registerErrMsgs : List String :=
  ["All fields required", "Invalid email format", "Password must be 6+ chars",
   "Email already exists"]

theorem register_cases (hashpw : String → String → String) (salt : String)
    (db : DB) (data : RegBody) :
    (∃ msg, msg ∈ registerErrMsgs ∧
      register hashpw salt db data = (⟨400, RBody.err msg⟩, db)) ∨
    register hashpw salt db data =
      (⟨201, RBody.msg "Registered Successfully"⟩,
       { db with
         users := db.users ++
           [{ oid := db.nextId, name := data.name.getD "", email := data.email.getD "",
              password := hashpw (data.password.getD "") salt }],
         nextId := db.nextId + 1 }) := by
  simp only [register]
  split
  · exact Or.inl ⟨_, by simp [registerErrMsgs], rfl⟩
  · split
    · exact Or.inl ⟨_, by simp [registerErrMsgs], rfl⟩
    · split
      · exact Or.inl ⟨_, by simp [registerErrMsgs], rfl⟩
      · split
        · exact Or.inl ⟨_, by simp [registerErrMsgs], rfl⟩
        · exact Or.inr rfl

theorem login_cases (checkpw : String → String → Bool) (mkToken : String → String)
    (db : DB) (data : LoginBody) :
    (∃ msg, (msg = "All fields required" ∨ msg = "Invalid credentials") ∧
      login checkpw mkToken db data = (⟨400, RBody.err msg⟩, db)) ∨
    (∃ u : UserDoc, login checkpw mkToken db data =
      (⟨200, RBody.tokenName (mkToken (oidStr u.oid)) u.name⟩, db)) := by
  simp only [login]
  split
  · exact Or.inl ⟨_, by simp, rfl⟩
  · split
    · exact Or.inl ⟨_, by simp, rfl⟩
    · split
      · exact Or.inl ⟨_, by simp, rfl⟩
      · exact Or.inr ⟨_, rfl⟩

theorem updatedEmps_snd_zero {db : DB} {uid : String} {oid : Nat} {data : EmpBody}
    (h : (updatedEmps db uid oid data).2 = 0) :
    (updatedEmps db uid oid data).1 = db.employees := by
  unfold updatedEmps at h ⊢
  exact update_one_snd_zero h

theorem deletedEmps_snd_zero {db : DB} {uid : String} {oid : Nat}
    (h : (deletedEmps db uid oid).2 = 0) :
    (deletedEmps db uid oid).1 = db.employees := by
  unfold deletedEmps at h ⊢
  exact delete_one_snd_zero h

theorem update_employee_cases (db : DB) (uid id : String) (data : EmpBody) :
    update_employee db uid id data = none ∨
    (∃ msg, msg ∈ createErrMsgs ∧
      update_employee db uid id data = some (⟨400, RBody.err msg⟩, db)) ∨
    update_employee db uid id data = some (⟨403, RBody.err "Not authorized"⟩, db) ∨
    (∃ es, update_employee db uid id data =
      some (⟨200, RBody.msg "Updated"⟩, { db with employees := es })) := by
  simp only [update_employee]
  split
  · exact Or.inr (Or.inl ⟨_, by simp [createErrMsgs], rfl⟩)
  · split
    · exact Or.inr (Or.inl ⟨_, by simp [createErrMsgs], rfl⟩)
    · split
      · exact Or.inr (Or.inl ⟨_, by simp [createErrMsgs], rfl⟩)
      · split
        · exact Or.inr (Or.inl ⟨_, by simp [createErrMsgs], rfl⟩)
        · split
          · exact Or.inr (Or.inl ⟨_, by simp [createErrMsgs], rfl⟩)
          · split
            · exact Or.inl rfl
            · split
              · exact Or.inr (Or.inl ⟨_, by simp [createErrMsgs], rfl⟩)
              · split
                · rename_i hz
                  refine Or.inr (Or.inr (Or.inl ?_))
                  rw [updatedEmps_snd_zero (beq_iff_eq.mp hz)]
                · exact Or.inr (Or.inr (Or.inr ⟨_, rfl⟩))

theorem delete_employee_cases (db : DB) (uid id : String) :
    delete_employee db uid id = none ∨
    delete_employee db uid id = some (⟨403, RBody.err "Not authorized"⟩, db) ∨
    (∃ es, delete_employee db uid id =
      some (⟨200, RBody.msg "Deleted"⟩, { db with employees := es })) := by
  simp only [delete_employee]
  split
  · exact Or.inl rfl
  · split
    · rename_i hz
      refine Or.inr (Or.inl ?_)
      rw [deletedEmps_snd_zero (beq_iff_eq.mp hz)]
    · exact Or.inr (Or.inr ⟨_, rfl⟩)

/-! ## Claim C3: salary validation -/

/-- C3: for every salary input, validation succeeds iff the input parses
(by Python `int(...)`) as an integer strictly greater than zero;
`"abc"`, `"-5"`, `"0"` and `null` are rejected, `"1"` and `100000` are
accepted; and on a successful create the persisted salary field is the
parsed integer value. -/
theorem salary_validation :
    (∀ v : JVal, validate_salary v = true ↔ ∃ n : Int, pyInt v = some n ∧ 0 < n) ∧
    validate_salary (JVal.jstr "abc") = false ∧
    validate_salary (JVal.jstr "-5") = false ∧
    validate_salary (JVal.jstr "0") = false ∧
    validate_salary JVal.jnull = false ∧
    validate_salary (JVal.jstr "1") = true ∧
    validate_salary (JVal.jint 100000) = true ∧
    (∀ db user_id data r db2, create_employee db user_id data = (r, db2) →
      r.status = 201 →
      ∃ d n, db2.employees = db.employees ++ [d] ∧
        pyInt data.salary = some n ∧ 0 < n ∧ d.salary = n) := by
  refine ⟨?_, by decide, by decide, by decide, by decide, by decide, by decide, ?_⟩
  · intro v
    unfold validate_salary
    rcases h : pyInt v with _ | n
    · simp
    · simp
  · intro db user_id data r db2 heq hst
    rcases create_employee_cases db user_id data with ⟨msg, hmem, hcase⟩ | ⟨hsal, hcase⟩
    · rw [hcase] at heq
      injection heq with hr hdb
      rw [← hr] at hst
      simp at hst
    · rw [hcase] at heq
      injection heq with hr hdb
      rcases hp : pyInt data.salary with _ | n
      · rw [validate_salary, hp] at hsal
        exact absurd hsal (by simp)
      · refine ⟨mkDoc db user_id data ((pyInt data.salary).getD 0), n, ?_, rfl, ?_, ?_⟩
        · rw [← hdb]
        · rw [validate_salary, hp] at hsal
          simpa using hsal
        · simp [mkDoc, hp]

/-- Witness for C3 at concrete inputs. -/
theorem salary_validation_witness :
    ∃ d n, (create_employee ⟨[], [], 0⟩ "u"
        ⟨some "Ann Lee", some "ann123@gmail.com", some "Sales", some "Manager",
         JVal.jstr "100"⟩).2.employees = ([] : List EmpDoc) ++ [d] ∧
      pyInt (JVal.jstr "100") = some n ∧ 0 < n ∧ d.salary = n := by
  exact salary_validation.2.2.2.2.2.2.2 ⟨[], [], 0⟩ "u"
    ⟨some "Ann Lee", some "ann123@gmail.com", some "Sales", some "Manager",
     JVal.jstr "100"⟩ _ _ rfl (by decide)

/-! ## Claim C5: register check order and outcome -/

/-- C5: for every register request the checks run in the order
missing-fields, email-format, password-length (at least 6),
duplicate-email; the first failing check returns its specific error with
status 400 and persists nothing; when all pass, exactly one user
document is inserted, holding the name, the email and the bcrypt hash
`hashpw password salt` of the password (the stored field is the hash,
not the plaintext), and the response is a 201 success message whose body
is a bare message — the `RBody.msg` constructor carries no token. -/
theorem register_check_order (hashpw : String → String → String) (salt : String)
    (db : DB) (data : RegBody) :
    ((falsy data.name || falsy data.email || falsy data.password) = true →
      register hashpw salt db data = (⟨400, RBody.err "All fields required"⟩, db)) ∧
    ((falsy data.name || falsy data.email || falsy data.password) = false →
      validate_email_format (data.email.getD "") = false →
      register hashpw salt db data = (⟨400, RBody.err "Invalid email format"⟩, db)) ∧
    ((falsy data.name || falsy data.email || falsy data.password) = false →
      validate_email_format (data.email.getD "") = true →
      validate_password (data.password.getD "") = false →
      register hashpw salt db data = (⟨400, RBody.err "Password must be 6+ chars"⟩, db)) ∧
    ((falsy data.name || falsy data.email || falsy data.password) = false →
      validate_email_format (data.email.getD "") = true →
      validate_password (data.password.getD "") = true →
      (db.users.find? (fun u => u.email == data.email.getD "")).isSome = true →
      register hashpw salt db data = (⟨400, RBody.err "Email already exists"⟩, db)) ∧
    ((falsy data.name || falsy data.email || falsy data.password) = false →
      validate_email_format (data.email.getD "") = true →
      validate_password (data.password.getD "") = true →
      db.users.find? (fun u => u.email == data.email.getD "") = none →
      register hashpw salt db data =
        (⟨201, RBody.msg "Registered Successfully"⟩,
         { db with
           users := db.users ++
             [{ oid := db.nextId, name := data.name.getD "", email := data.email.getD "",
                password := hashpw (data.password.getD "") salt }],
           nextId := db.nextId + 1 })) := by
  refine ⟨?_, ?_, ?_, ?_, ?_⟩
  · intro h1
    simp [register, h1]
  · intro h1 h2
    simp [register, h1, h2]
  · intro h1 h2 h3
    simp [register, h1, h2, h3]
  · intro h1 h2 h3 h4
    simp [register, h1, h2, h3, h4]
  · intro h1 h2 h3 h4
    simp [register, h1, h2, h3, h4]

/-- Witness for C5: a concrete successful registration. -/
theorem register_check_order_witness :
    register (fun p s => p ++ s) "xy" ⟨[], [], 0⟩
        ⟨some "Ann", some "ann123@gmail.com", some "secret1"⟩ =
      (⟨201, RBody.msg "Registered Successfully"⟩,
       ⟨[] ++ [{ oid := 0, name := "Ann", email := "ann123@gmail.com",
                 password := "secret1" ++ "xy" }], [], 0 + 1⟩) := by
  exact (register_check_order (fun p s => p ++ s) "xy" ⟨[], [], 0⟩
    ⟨some "Ann", some "ann123@gmail.com", some "secret1"⟩).2.2.2.2
    (by decide) (by decide) (by decide) (by decide)

/-! ## Claim C6: login credential non-disclosure -/

/-- C6: for every login request with both fields present, the
no-such-user failure and the wrong-password failure produce the same
response: status 400, body `{error: "Invalid credentials"}`; a caller
cannot tell which check failed. -/
theorem login_credential_nondisclosure (checkpw : String → String → Bool)
    (mkToken : String → String) (db : DB) (data : LoginBody)
    (hfe : falsy data.email = false) (hfp : falsy data.password = false) :
    (db.users.find? (fun u => u.email == data.email.getD "") = none →
      login checkpw mkToken db data = (⟨400, RBody.err "Invalid credentials"⟩, db)) ∧
    (∀ u : UserDoc, db.users.find? (fun u2 => u2.email == data.email.getD "") = some u →
      checkpw (data.password.getD "") u.password = false →
      login checkpw mkToken db data = (⟨400, RBody.err "Invalid credentials"⟩, db)) := by
  constructor
  · intro hfind
    simp [login, hfe, hfp, hfind]
  · intro u hfind hcheck
    simp [login, hfe, hfp, hfind, hcheck]

/-- Witness for C6: the two failure modes on concrete stores produce the
same response value. -/
theorem login_credential_nondisclosure_witness :
    login (fun _ _ => false) (fun s => s) ⟨[], [], 0⟩
        ⟨some "ann123@gmail.com", some "secret1"⟩ =
      (⟨400, RBody.err "Invalid credentials"⟩, ⟨[], [], 0⟩) ∧
    login (fun _ _ => false) (fun s => s)
        ⟨[{ oid := 0, name := "Ann", email := "ann123@gmail.com", password := "h" }], [], 1⟩
        ⟨some "ann123@gmail.com", some "secret1"⟩ =
      (⟨400, RBody.err "Invalid credentials"⟩,
       ⟨[{ oid := 0, name := "Ann", email := "ann123@gmail.com", password := "h" }], [], 1⟩) := by
  constructor
  · exact (login_credential_nondisclosure (fun _ _ => false) (fun s => s) ⟨[], [], 0⟩
      ⟨some "ann123@gmail.com", some "secret1"⟩ (by decide) (by decide)).1 (by decide)
  · exact (login_credential_nondisclosure (fun _ _ => false) (fun s => s)
      ⟨[{ oid := 0, name := "Ann", email := "ann123@gmail.com", password := "h" }], [], 1⟩
      ⟨some "ann123@gmail.com", some "secret1"⟩ (by decide) (by decide)).2
      { oid := 0, name := "Ann", email := "ann123@gmail.com", password := "h" }
      (by decide) rfl

/-! ## Claim C9: atomicity on error -/

/-- C9: whenever register, login, create, update, or delete returns an
error response, the users and employees collections are unchanged (for
`update_one` / `delete_one` the error path matches zero documents, so
the collection is passed through untouched). -/
theorem atomicity_on_error :
    (∀ hashpw salt (db : DB) data r db2, register hashpw salt db data = (r, db2) →
      r.status ≠ 201 → db2 = db) ∧
    (∀ checkpw mkToken (db : DB) data r db2, login checkpw mkToken db data = (r, db2) →
      db2 = db) ∧
    (∀ (db : DB) uid data r db2, create_employee db uid data = (r, db2) →
      r.status ≠ 201 → db2 = db) ∧
    (∀ (db : DB) uid id data r db2, update_employee db uid id data = some (r, db2) →
      r.status ≠ 200 → db2 = db) ∧
    (∀ (db : DB) uid id r db2, delete_employee db uid id = some (r, db2) →
      r.status ≠ 200 → db2 = db) := by
  refine ⟨?_, ?_, ?_, ?_, ?_⟩
  · intro hashpw salt db data r db2 heq hst
    rcases register_cases hashpw salt db data with ⟨msg, hmem, hcase⟩ | hcase
    · rw [hcase] at heq
      injection heq with h1 h2
      exact h2.symm
    · rw [hcase] at heq
      injection heq with h1 h2
      rw [← h1] at hst
      simp at hst
  · intro checkpw mkToken db data r db2 heq
    rcases login_cases checkpw mkToken db data with ⟨msg, hmsg, hcase⟩ | ⟨u, hcase⟩ <;>
      (rw [hcase] at heq; injection heq with h1 h2; exact h2.symm)
  · intro db uid data r db2 heq hst
    rcases create_employee_cases db uid data with ⟨msg, hmem, hcase⟩ | ⟨hsal, hcase⟩
    · rw [hcase] at heq
      injection heq with h1 h2
      exact h2.symm
    · rw [hcase] at heq
      injection heq with h1 h2
      rw [← h1] at hst
      simp at hst
  · intro db uid id data r db2 heq hst
    rcases update_employee_cases db uid id data with hcase | ⟨msg, hmem, hcase⟩ | hcase | ⟨es, hcase⟩
    · rw [hcase] at heq
      exact absurd heq (by simp)
    · rw [hcase] at heq
      injection heq with h
      injection h with h1 h2
      exact h2.symm
    · rw [hcase] at heq
      injection heq with h
      injection h with h1 h2
      exact h2.symm
    · rw [hcase] at heq
      injection heq with h
      injection h with h1 h2
      rw [← h1] at hst
      simp at hst
  · intro db uid id r db2 heq hst
    rcases delete_employee_cases db uid id with hcase | hcase | ⟨es, hcase⟩
    · rw [hcase] at heq
      exact absurd heq (by simp)
    · rw [hcase] at heq
      injection heq with h
      injection h with h1 h2
      exact h2.symm
    · rw [hcase] at heq
      injection heq with h
      injection h with h1 h2
      rw [← h1] at hst
      simp at hst

/-- Witness for C9: a create that fails validation leaves the store
unchanged. -/
theorem atomicity_on_error_witness :
    (create_employee ⟨[], [], 0⟩ "u"
        ⟨some "X", some "ann123@gmail.com", some "Sales", some "Manager",
         JVal.jint 5⟩).2 = (⟨[], [], 0⟩ : DB) := by
  exact atomicity_on_error.2.2.1 ⟨[], [], 0⟩ "u"
    ⟨some "X", some "ann123@gmail.com", some "Sales", some "Manager", JVal.jint 5⟩
    _ _ rfl (by decide)

/-! ## Claim C8: error status mapping (corrected) -/

/-- C8 counterexample: the login handler's invalid-credentials error —
the spec taxonomy's `AuthError` — is returned with status 400, not 401:
the claim's mapping "AuthError → 401" fails on the code. -/
theorem error_status_mapping_counterexample :
    login (fun _ _ => true) (fun s => s) ⟨[], [], 0⟩
        ⟨some "ann123@gmail.com", some "secret1"⟩ =
      (⟨400, RBody.err "Invalid credentials"⟩, ⟨[], [], 0⟩) ∧
    (400 : Nat) ≠ 401 := by
  refine ⟨by decide, by decide⟩

/-- C8 amended: every handler error response has body `{error: message}`;
`ValidationError` and `ConflictError` responses have status 400; the
`ForbiddenError` responses of update/delete (`"Not authorized"`) have
status 403 and are the only 403s; the `AuthError` emitted by the login
handler (`"Invalid credentials"`) has status 400, not 401 (missing and
invalid token 401s come from the JWT middleware outside these handlers);
list never returns an error. -/
theorem error_status_mapping :
    (∀ hashpw salt (db : DB) data r db2, register hashpw salt db data = (r, db2) →
      (∃ m, r.body = RBody.err m) → r.status = 400) ∧
    (∀ checkpw mkToken (db : DB) data r db2, login checkpw mkToken db data = (r, db2) →
      (∃ m, r.body = RBody.err m) → r.status = 400) ∧
    (∀ (db : DB) uid data r db2, create_employee db uid data = (r, db2) →
      (∃ m, r.body = RBody.err m) → r.status = 400) ∧
    (∀ (db : DB) uid m, (get_employees db uid).body ≠ RBody.err m) ∧
    (∀ (db : DB) uid id data r db2, update_employee db uid id data = some (r, db2) →
      (r.body = RBody.err "Not authorized" → r.status = 403) ∧
      (∀ m, m ≠ "Not authorized" → r.body = RBody.err m → r.status = 400)) ∧
    (∀ (db : DB) uid id r db2, delete_employee db uid id = some (r, db2) →
      (r.body = RBody.err "Not authorized" → r.status = 403) ∧
      (∀ m, m ≠ "Not authorized" → r.body = RBody.err m → r.status = 400)) := by
  refine ⟨?_, ?_, ?_, ?_, ?_, ?_⟩
  · intro hashpw salt db data r db2 heq herr
    rcases register_cases hashpw salt db data with ⟨msg, hmem, hcase⟩ | hcase <;>
      (rw [hcase] at heq; injection heq with h1 h2; rw [← h1])
    rcases herr with ⟨m, hm⟩
    rw [← h1] at hm
    exact absurd hm (by simp)
  · intro checkpw mkToken db data r db2 heq herr
    rcases login_cases checkpw mkToken db data with ⟨msg, hmsg, hcase⟩ | ⟨u, hcase⟩ <;>
      (rw [hcase] at heq; injection heq with h1 h2; rw [← h1])
    rcases herr with ⟨m, hm⟩
    rw [← h1] at hm
    exact absurd hm (by simp)
  · intro db uid data r db2 heq herr
    rcases create_employee_cases db uid data with ⟨msg, hmem, hcase⟩ | ⟨hsal, hcase⟩ <;>
      (rw [hcase] at heq; injection heq with h1 h2; rw [← h1])
    rcases herr with ⟨m, hm⟩
    rw [← h1] at hm
    exact absurd hm (by simp)
  · intro db uid m
    simp [get_employees]
  · intro db uid id data r db2 heq
    rcases update_employee_cases db uid id data with hcase | ⟨msg, hmem, hcase⟩ | hcase | ⟨es, hcase⟩
    · rw [hcase] at heq
      exact absurd heq (by simp)
    · rw [hcase] at heq
      injection heq with h
      injection h with h1 h2
      constructor
      · intro hbody
        rw [← h1] at hbody
        have hmsg : msg = "Not authorized" := by
          simpa using hbody
        rw [hmsg] at hmem
        exact absurd hmem (by decide)
      · intro m hne hbody
        rw [← h1]
    · rw [hcase] at heq
      injection heq with h
      injection h with h1 h2
      constructor
      · intro hbody
        rw [← h1]
      · intro m hne hbody
        rw [← h1] at hbody
        have hmsg : m = "Not authorized" := by
          have h3 : RBody.err m = RBody.err "Not authorized" := by
            rw [← hbody]
          injection h3
        exact absurd hmsg hne
    · rw [hcase] at heq
      injection heq with h
      injection h with h1 h2
      constructor
      · intro hbody
        rw [← h1] at hbody
        exact absurd hbody (by simp)
      · intro m hne hbody
        rw [← h1] at hbody
        exact absurd hbody (by simp)
  · intro db uid id r db2 heq
    rcases delete_employee_cases db uid id with hcase | hcase | ⟨es, hcase⟩
    · rw [hcase] at heq
      exact absurd heq (by simp)
    · rw [hcase] at heq
      injection heq with h
      injection h with h1 h2
      constructor
      · intro hbody
        rw [← h1]
      · intro m hne hbody
        rw [← h1] at hbody
        have hmsg : m = "Not authorized" := by
          simpa using hbody.symm
        exact absurd hmsg hne
    · rw [hcase] at heq
      injection heq with h
      injection h with h1 h2
      constructor
      · intro hbody
        rw [← h1] at hbody
        exact absurd hbody (by simp)
      · intro m hne hbody
        rw [← h1] at hbody
        exact absurd hbody (by simp)

/-- Witness for C8's amended theorem: a concrete 403 from delete. -/
theorem error_status_mapping_witness :
    ((⟨403, RBody.err "Not authorized"⟩ : Resp)).status = 403 := by
  exact (error_status_mapping.2.2.2.2.2 ⟨[], [], 0⟩ "u" "000000000000000000000000"
    ⟨403, RBody.err "Not authorized"⟩ ⟨[], [], 0⟩ (by decide)).1 rfl

/-! ## Claim C1: owner isolation (corrected) -/

def userA : UserDoc := ⟨100, "Alice Smith", "alicea@gmail.com", "hashA"⟩
def userB : UserDoc := ⟨101, "Bobby Jones", "bobbyb@gmail.com", "hashB"⟩
def empA1 : EmpDoc := ⟨1, "Eve Adams", "eveeve@gmail.com", "Sales", "Manager", 50, oidStr 100⟩
def empB2 : EmpDoc := ⟨2, "Mal Jones", "malmal@gmail.com", "Sales", "Manager", 60, oidStr 101⟩
def empB3 : EmpDoc := ⟨3, "Ned Stark", "nedned@gmail.com", "Sales", "Clerk", 40, oidStr 101⟩

/-- A store with two users; employee 1 belongs to user A, employees 2
and 3 to user B. -/
def dbC1 : DB := ⟨[userA, userB], [empA1, empB2, empB3], 4⟩

/-- A fully valid update payload whose email is already held by user B's
other employee (`empB2`). -/
def bodyMal : EmpBody :=
  ⟨some "Mal Jones", some "malmal@gmail.com", some "Sales", some "Manager", JVal.jint 70⟩

/-- C1 counterexample: user B updating user A's employee (id 1) with a
fully valid payload gets `409`-style `"Email already exists"` (status
400), not `ForbiddenError "not authorized"`: the duplicate-email check
runs before the ownership check, so update by a non-owner does not
always yield `ForbiddenError`. -/
theorem owner_isolation_counterexample :
    empA1.createdBy = oidStr 100 ∧ oidStr 100 ≠ oidStr 101 ∧
    update_employee dbC1 (oidStr 101) (oidStr 1) bodyMal =
      some (⟨400, RBody.err "Email already exists"⟩, dbC1) ∧
    RBody.err "Email already exists" ≠ RBody.err "Not authorized" := by
  refine ⟨rfl, by decide, by decide, by decide⟩

/-- C1 amended: for distinct users A and B and an employee record of A,
list invoked by B never returns it; delete by B on its id always yields
`ForbiddenError` removing nothing; update by B on its id never modifies
the store and never succeeds, and it yields `ForbiddenError` matching
zero documents whenever the payload passes field validation and B has no
conflicting employee email; with an invalid or conflicting payload it
yields the corresponding 400 error instead, still changing nothing. -/
theorem owner_isolation (db : DB) (A B : String) (e : EmpDoc) (idS : String)
    (hAB : A ≠ B)
    (hmem : e ∈ db.employees)
    (hown : e.createdBy = A)
    (hnodup : (db.employees.map EmpDoc.oid).Nodup)
    (hid : objectId idS = some e.oid) :
    (∀ o ∈ get_employees_list db B, o.createdBy = B) ∧
    serialize e ∉ get_employees_list db B ∧
    delete_employee db B idS = some (⟨403, RBody.err "Not authorized"⟩, db) ∧
    (∀ data r db2, update_employee db B idS data = some (r, db2) →
      db2 = db ∧ r.status ≠ 200) ∧
    (∀ data : EmpBody, validate_name (getField data.name) = true →
      validate_email_format (getField data.email) = true →
      validate_text_field (getField data.department) = true →
      validate_text_field (getField data.designation) = true →
      validate_salary data.salary = true →
      db.employees.find? (fun e2 => e2.email == getField data.email &&
        e2.createdBy == B && e2.oid != e.oid) = none →
      update_employee db B idS data = some (⟨403, RBody.err "Not authorized"⟩, db)) := by
  have hpred : ∀ x ∈ db.employees, (x.oid == e.oid && x.createdBy == B) = false := by
    intro x hx
    by_cases hoid : x.oid = e.oid
    · have hxe : x = e := List.inj_on_of_nodup_map hnodup hx hmem hoid
      subst hxe
      have hB : (x.createdBy == B) = false := by
        rw [hown]
        exact beq_eq_false_iff_ne.mpr hAB
      simp [hB]
    · have hO : (x.oid == e.oid) = false := beq_eq_false_iff_ne.mpr hoid
      simp [hO]
  have hlistB : ∀ o ∈ get_employees_list db B, o.createdBy = B := by
    intro o ho
    rcases List.mem_map.mp ho with ⟨x, hxmem, rfl⟩
    have hxf := (List.mem_filter.mp hxmem).2
    exact beq_iff_eq.mp hxf
  have hdel : deletedEmps db B e.oid = (db.employees, 0) := by
    unfold deletedEmps
    exact delete_one_of_all_false hpred
  refine ⟨hlistB, ?_, ?_, ?_, ?_⟩
  · intro habs
    have hBc : (serialize e).createdBy = B := hlistB _ habs
    have hAc : (serialize e).createdBy = A := hown
    exact hAB (hAc.symm.trans hBc)
  · simp only [delete_employee, hid, hdel]
    rfl
  · intro data r db2 heq
    simp only [update_employee, hid] at heq
    have hupd : updatedEmps db B e.oid data = (db.employees, 0) := by
      unfold updatedEmps
      exact update_one_of_all_false hpred
    rw [hupd] at heq
    split at heq
    · injection heq with h
      injection h with h1 h2
      exact ⟨h2.symm, by rw [← h1]; simp⟩
    · split at heq
      · injection heq with h
        injection h with h1 h2
        exact ⟨h2.symm, by rw [← h1]; simp⟩
      · split at heq
        · injection heq with h
          injection h with h1 h2
          exact ⟨h2.symm, by rw [← h1]; simp⟩
        · split at heq
          · injection heq with h
            injection h with h1 h2
            exact ⟨h2.symm, by rw [← h1]; simp⟩
          · split at heq
            · injection heq with h
              injection h with h1 h2
              exact ⟨h2.symm, by rw [← h1]; simp⟩
            · split at heq
              · injection heq with h
                injection h with h1 h2
                exact ⟨h2.symm, by rw [← h1]; simp⟩
              · simp at heq
                obtain ⟨h1, h2⟩ := heq
                refine ⟨?_, by rw [← h1]; simp⟩
                rw [← h2]
  · intro data hn he2 hd hg hs hdup
    have hupd : updatedEmps db B e.oid data = (db.employees, 0) := by
      unfold updatedEmps
      exact update_one_of_all_false hpred
    simp only [update_employee, hn, he2, hd, hg, hs, hid, hdup, hupd,
      Bool.not_true, Option.isSome_none]
    rfl

/-- Witness for C1's amended theorem: delete by B of A's employee on the
concrete store. -/
theorem owner_isolation_witness :
    delete_employee dbC1 (oidStr 101) (oidStr 1) =
      some (⟨403, RBody.err "Not authorized"⟩, dbC1) := by
  exact (owner_isolation dbC1 (oidStr 100) (oidStr 101) empA1 (oidStr 1)
    (by decide) (by decide) rfl (by decide) (by decide)).2.2.1

/-! ## Claim C7: update duplicate-email exclusion (corrected) -/

/-- C7 counterexample: updating user B's own employee 2 with a payload
whose email is held by B's other employee 3 (different identifier, same
`createdBy`) but whose name fails validation returns
`"Invalid Name"`, not `ConflictError`: the claimed "yields ConflictError
exactly when some employee with a different identifier and the same
createdBy already has the target email" fails when field validation
fails first. -/
theorem update_conflict_counterexample :
    (dbC1.employees.find? (fun e => e.email == "nedned@gmail.com" &&
        e.createdBy == oidStr 101 && e.oid != 2)).isSome = true ∧
    update_employee dbC1 (oidStr 101) (oidStr 2)
        ⟨some "X", some "nedned@gmail.com", some "Sales", some "Clerk", JVal.jint 10⟩ =
      some (⟨400, RBody.err "Invalid Name"⟩, dbC1) ∧
    RBody.err "Invalid Name" ≠ RBody.err "Email already exists" := by
  refine ⟨by decide, by decide, by decide⟩

/-- C7 amended: for a payload that passes field validation, update
yields `ConflictError` exactly when some employee with a different
identifier and the same `createdBy` already has the target email (no
ownership condition: the conflict check runs before the
ownership/existence check); and an update by the owner that keeps the
record's own current email never yields `ConflictError`, given the
`(email, createdBy)` uniqueness invariant. -/
theorem update_conflict_characterization (db : DB) (uid idS : String) (oid : Nat)
    (data : EmpBody)
    (hn : validate_name (getField data.name) = true)
    (he : validate_email_format (getField data.email) = true)
    (hd : validate_text_field (getField data.department) = true)
    (hg : validate_text_field (getField data.designation) = true)
    (hs : validate_salary data.salary = true)
    (hid : objectId idS = some oid) :
    (update_employee db uid idS data = some (⟨400, RBody.err "Email already exists"⟩, db) ↔
      ∃ e2 ∈ db.employees, e2.email = getField data.email ∧ e2.createdBy = uid ∧
        e2.oid ≠ oid) ∧
    (∀ e ∈ db.employees, e.oid = oid → e.createdBy = uid →
      getField data.email = e.email →
      (∀ e1 ∈ db.employees, ∀ e2 ∈ db.employees,
        e1.createdBy = e2.createdBy → e1.email = e2.email → e1 = e2) →
      update_employee db uid idS data ≠
        some (⟨400, RBody.err "Email already exists"⟩, db)) := by
  have hiff : update_employee db uid idS data =
      some (⟨400, RBody.err "Email already exists"⟩, db) ↔
      ∃ e2 ∈ db.employees, e2.email = getField data.email ∧ e2.createdBy = uid ∧
        e2.oid ≠ oid := by
    simp only [update_employee, hn, he, hd, hg, hs, hid, Bool.not_true,
      Bool.false_eq_true, if_false]
    rcases hfind : (db.employees.find? (fun e2 => e2.email == getField data.email &&
        e2.createdBy == uid && e2.oid != oid)).isSome with _ | _
    · constructor
      · intro habs
        rw [if_neg (by simp [hfind])] at habs
        split at habs <;> simp at habs
      · rintro ⟨e2, hm2, he2, hc2, hne2⟩
        have hnone : db.employees.find? (fun e2 => e2.email == getField data.email &&
            e2.createdBy == uid && e2.oid != oid) = none := by
          rcases hopt : db.employees.find? (fun e2 => e2.email == getField data.email &&
              e2.createdBy == uid && e2.oid != oid) with _ | x
          · exact hopt
          · rw [hopt] at hfind
            simp at hfind
        have := List.find?_eq_none.mp hnone e2 hm2
        exact absurd (by simp [he2, hc2, hne2]) this
    · rw [if_pos (by simp [hfind])]
      constructor
      · intro _
        rcases List.find?_isSome.mp hfind with ⟨e2, hm2, hp2⟩
        simp only [Bool.and_eq_true, beq_iff_eq, bne_iff_ne] at hp2
        exact ⟨e2, hm2, hp2.1.1, hp2.1.2, hp2.2⟩
      · intro _
        rfl
  refine ⟨hiff, ?_⟩
  intro e hm hoid hcb hemail hinv habs
  rcases hiff.mp habs with ⟨e2, hm2, he2, hc2, hne2⟩
  have : e2 = e := hinv e2 hm2 e hm (hc2.trans hcb.symm) (he2.trans hemail)
  rw [this, hoid] at hne2
  exact hne2 rfl

/-- Witness for C7's amended theorem: a conflicting update by the owner
on the concrete store yields `ConflictError`. -/
theorem update_conflict_characterization_witness :
    update_employee dbC1 (oidStr 101) (oidStr 2)
        ⟨some "Mal Jones", some "nedned@gmail.com", some "Sales", some "Clerk",
         JVal.jint 10⟩ =
      some (⟨400, RBody.err "Email already exists"⟩, dbC1) := by
  exact (update_conflict_characterization dbC1 (oidStr 101) (oidStr 2) 2
    ⟨some "Mal Jones", some "nedned@gmail.com", some "Sales", some "Clerk", JVal.jint 10⟩
    (by decide) (by decide) (by decide) (by decide) (by decide) (by decide)).1.mpr
    ⟨empB3, by decide, by decide, by decide, by decide⟩

/-! ## Claim C10: ObjectId precondition (corrected) -/

/-- C10 counterexample: with a malformed id (`"zzz"` is not 24 hex
characters) but an invalid payload, `update_employee` still returns a
taxonomy response (`400 "Invalid Name"`) instead of raising from the
`ObjectId` constructor: field validation runs before `ObjectId(id)` is
built. -/
theorem objectid_precondition_counterexample :
    objectId "zzz" = none ∧
    update_employee dbC1 (oidStr 101) "zzz"
        ⟨some "X", some "nedned@gmail.com", some "Sales", some "Clerk", JVal.jint 10⟩ =
      some (⟨400, RBody.err "Invalid Name"⟩, dbC1) := by
  refine ⟨by decide, by decide⟩

/-- C10 amended: an id is accepted by the `ObjectId` constructor iff it
is 24 hex characters; for delete, a malformed id always raises (no
response) and a well-formed id always yields a response, with the
zero-match branch returning 403; for update, a malformed id raises
exactly when field validation passes (with an invalid field the 400
validation response is returned before `ObjectId(id)` is constructed),
and with a well-formed id the operation is total, the zero-match branch
returning 403. -/
theorem objectid_precondition :
    (∀ s : String, (objectId s).isSome = true ↔
      (s.length = 24 ∧ s.data.all isHexChar = true)) ∧
    (∀ (db : DB) uid idS, objectId idS = none → delete_employee db uid idS = none) ∧
    (∀ (db : DB) uid idS, (objectId idS).isSome = true →
      (delete_employee db uid idS).isSome = true) ∧
    (∀ (db : DB) uid idS oid, objectId idS = some oid →
      (∀ x ∈ db.employees, (x.oid == oid && x.createdBy == uid) = false) →
      delete_employee db uid idS = some (⟨403, RBody.err "Not authorized"⟩, db)) ∧
    (∀ (db : DB) uid idS data, objectId idS = none →
      validate_name (getField data.name) = true →
      validate_email_format (getField data.email) = true →
      validate_text_field (getField data.department) = true →
      validate_text_field (getField data.designation) = true →
      validate_salary data.salary = true →
      update_employee db uid idS data = none) ∧
    (∀ (db : DB) uid idS data, (objectId idS).isSome = true →
      (update_employee db uid idS data).isSome = true) ∧
    (∀ (db : DB) uid idS oid data, objectId idS = some oid →
      validate_name (getField data.name) = true →
      validate_email_format (getField data.email) = true →
      validate_text_field (getField data.department) = true →
      validate_text_field (getField data.designation) = true →
      validate_salary data.salary = true →
      db.employees.find? (fun e2 => e2.email == getField data.email &&
        e2.createdBy == uid && e2.oid != oid) = none →
      (∀ x ∈ db.employees, (x.oid == oid && x.createdBy == uid) = false) →
      update_employee db uid idS data = some (⟨403, RBody.err "Not authorized"⟩, db)) := by
  refine ⟨?_, ?_, ?_, ?_, ?_, ?_, ?_⟩
  · intro s
    unfold objectId
    split
    · rename_i h
      simp only [Bool.and_eq_true, decide_eq_true_iff] at h
      simp [h.1, h.2]
    · rename_i h
      simp only [Bool.and_eq_true, decide_eq_true_iff, not_and] at h
      simp only [Option.isSome_none, Bool.false_eq_true, false_iff, not_and]
      exact h
  · intro db uid idS h
    simp [delete_employee, h]
  · intro db uid idS h
    rcases Option.isSome_iff_exists.mp h with ⟨oid, hoid⟩
    simp only [delete_employee, hoid]
    split <;> simp
  · intro db uid idS oid hid hpred
    have hdel : deletedEmps db uid oid = (db.employees, 0) := by
      unfold deletedEmps
      exact delete_one_of_all_false hpred
    simp only [delete_employee, hid, hdel]
    rfl
  · intro db uid idS data hid hn he hd hg hs
    simp [update_employee, hn, he, hd, hg, hs, hid]
  · intro db uid idS data h
    rcases Option.isSome_iff_exists.mp h with ⟨oid, hoid⟩
    simp only [update_employee, hoid]
    repeat' split
    all_goals simp
  · intro db uid idS oid data hid hn he hd hg hs hdup hpred
    have hupd : updatedEmps db uid oid data = (db.employees, 0) := by
      unfold updatedEmps
      exact update_one_of_all_false hpred
    simp only [update_employee, hn, he, hd, hg, hs, hid, hdup, hupd,
      Bool.not_true, Option.isSome_none]
    rfl

/-- Witness for C10's amended theorem: a 403 delete on a well-formed id
with no matching document. -/
theorem objectid_precondition_witness :
    delete_employee ⟨[], [], 0⟩ "u" (oidStr 7) =
      some (⟨403, RBody.err "Not authorized"⟩, ⟨[], [], 0⟩) := by
  exact objectid_precondition.2.2.2.1 ⟨[], [], 0⟩ "u" (oidStr 7) 7
    (by decide) (by decide)

/-! ## Claim C2: CRUD round trip -/

theorem serialize_mem_list {db : DB} {uid : String} {d : EmpDoc}
    (hd : d.createdBy = uid) (hmem : d ∈ db.employees) :
    serialize d ∈ get_employees_list db uid :=
  List.mem_map_of_mem serialize (List.mem_filter.mpr ⟨hmem, by simp [hd]⟩)

/-- C2: for an authenticated user and valid fields (over a well-formed
store), create succeeds and list returns the new record with the trimmed
field values and the salary parsed as an integer; a valid update of that
id succeeds and list then holds exactly the new values for that
identifier; delete of that id succeeds and list no longer contains any
record with that identifier (identifiers in list output are the string
forms of the ObjectIds). -/
theorem crud_round_trip (db : DB) (uid : String) (b1 b2 : EmpBody) (idS : String)
    (hwf : ∀ x ∈ db.employees, x.oid < db.nextId)
    (hbound : db.nextId < 16 ^ 24)
    (hn1 : validate_name (getField b1.name) = true)
    (he1 : validate_email_format (getField b1.email) = true)
    (hd1 : validate_text_field (getField b1.department) = true)
    (hg1 : validate_text_field (getField b1.designation) = true)
    (hs1 : validate_salary b1.salary = true)
    (hdup1 : db.employees.find?
      (fun x => x.email == getField b1.email && x.createdBy == uid) = none)
    (hn2 : validate_name (getField b2.name) = true)
    (he2 : validate_email_format (getField b2.email) = true)
    (hd2 : validate_text_field (getField b2.department) = true)
    (hg2 : validate_text_field (getField b2.designation) = true)
    (hs2 : validate_salary b2.salary = true)
    (hdup2 : ∀ x ∈ db.employees, ¬(x.email = getField b2.email ∧ x.createdBy = uid))
    (hid : objectId idS = some db.nextId) :
    ∃ n1 n2 : Int,
      pyInt b1.salary = some n1 ∧ 0 < n1 ∧ pyInt b2.salary = some n2 ∧ 0 < n2 ∧
      create_employee db uid b1 =
        (⟨201, RBody.msg "Employee Added"⟩,
         ⟨db.users, db.employees ++ [mkDoc db uid b1 n1], db.nextId + 1⟩) ∧
      serialize (mkDoc db uid b1 n1) ∈
        get_employees_list
          ⟨db.users, db.employees ++ [mkDoc db uid b1 n1], db.nextId + 1⟩ uid ∧
      update_employee
          ⟨db.users, db.employees ++ [mkDoc db uid b1 n1], db.nextId + 1⟩ uid idS b2 =
        some (⟨200, RBody.msg "Updated"⟩,
              ⟨db.users, db.employees ++ [mkDoc db uid b2 n2], db.nextId + 1⟩) ∧
      serialize (mkDoc db uid b2 n2) ∈
        get_employees_list
          ⟨db.users, db.employees ++ [mkDoc db uid b2 n2], db.nextId + 1⟩ uid ∧
      (∀ o ∈ get_employees_list
          ⟨db.users, db.employees ++ [mkDoc db uid b2 n2], db.nextId + 1⟩ uid,
        o.idStr = oidStr db.nextId → o = serialize (mkDoc db uid b2 n2)) ∧
      delete_employee
          ⟨db.users, db.employees ++ [mkDoc db uid b2 n2], db.nextId + 1⟩ uid idS =
        some (⟨200, RBody.msg "Deleted"⟩, ⟨db.users, db.employees, db.nextId + 1⟩) ∧
      (∀ o ∈ get_employees_list ⟨db.users, db.employees, db.nextId + 1⟩ uid,
        o.idStr ≠ oidStr db.nextId) := by
  rcases hp1 : pyInt b1.salary with _ | n1
  · rw [validate_salary, hp1] at hs1
    exact absurd hs1 (by simp)
  rcases hp2 : pyInt b2.salary with _ | n2
  · rw [validate_salary, hp2] at hs2
    exact absurd hs2 (by simp)
  have hn1pos : 0 < n1 := by
    rw [validate_salary, hp1] at hs1
    simpa using hs1
  have hn2pos : 0 < n2 := by
    rw [validate_salary, hp2] at hs2
    simpa using hs2
  -- facts about the pre-existing documents
  have hserne : ∀ x ∈ db.employees, oidStr x.oid ≠ oidStr db.nextId := by
    intro x hx habs
    have hlt := hwf x hx
    have hxb : x.oid < 16 ^ 24 := lt_trans hlt hbound
    have := oidStr_inj hxb hbound habs
    omega
  have hpne : ∀ x ∈ db.employees, (x.oid == db.nextId && x.createdBy == uid) = false := by
    intro x hx
    have hne : (x.oid == db.nextId) = false :=
      beq_eq_false_iff_ne.mpr (Nat.ne_of_lt (hwf x hx))
    simp [hne]
  refine ⟨n1, n2, rfl, hn1pos, rfl, hn2pos, ?_, ?_, ?_, ?_, ?_, ?_, ?_⟩
  · rw [create_employee_success hn1 he1 hd1 hg1 hs1 hdup1, hp1]
    rfl
  · exact serialize_mem_list rfl (List.mem_append_right _ (List.mem_singleton_self _))
  · -- the update step
    have hdupnone : (db.employees ++ [mkDoc db uid b1 n1]).find?
        (fun x => x.email == getField b2.email && x.createdBy == uid &&
          x.oid != db.nextId) = none := by
      apply List.find?_eq_none.mpr
      intro x hx
      rcases List.mem_append.mp hx with hx | hx
      · have hnd := hdup2 x hx
        by_cases hA : x.email = getField b2.email
        · have hB : x.createdBy ≠ uid := fun h => hnd ⟨hA, h⟩
          simp [hA, hB]
        · simp [hA]
      · rw [List.mem_singleton.mp hx]
        simp [mkDoc]
    have hupdEq : updatedEmps
        ⟨db.users, db.employees ++ [mkDoc db uid b1 n1], db.nextId + 1⟩ uid db.nextId b2 =
        (db.employees ++ [mkDoc db uid b2 n2], 1) := by
      unfold updatedEmps
      rw [show (⟨db.users, db.employees ++ [mkDoc db uid b1 n1], db.nextId + 1⟩ : DB).employees
            = db.employees ++ mkDoc db uid b1 n1 :: [] from rfl]
      rw [update_one_found hpne (by simp [mkDoc])]
      simp [mkDoc, hp2]
    simp only [update_employee, hn2, he2, hd2, hg2, hs2, hid, hdupnone, hupdEq,
      Bool.not_true, Option.isSome_none]
    rfl
  · exact serialize_mem_list rfl (List.mem_append_right _ (List.mem_singleton_self _))
  · intro o ho hostr
    rcases List.mem_map.mp ho with ⟨x, hxf, rfl⟩
    rcases List.mem_append.mp (List.mem_filter.mp hxf).1 with hx | hx
    · exact absurd hostr (hserne x hx)
    · rw [List.mem_singleton.mp hx]
  · have hdelEq : deletedEmps
        ⟨db.users, db.employees ++ [mkDoc db uid b2 n2], db.nextId + 1⟩ uid db.nextId =
        (db.employees, 1) := by
      unfold deletedEmps
      rw [show (⟨db.users, db.employees ++ [mkDoc db uid b2 n2], db.nextId + 1⟩ : DB).employees
            = db.employees ++ mkDoc db uid b2 n2 :: [] from rfl]
      rw [delete_one_found hpne (by simp [mkDoc])]
      simp
    simp only [delete_employee, hid, hdelEq]
    rfl
  · intro o ho
    rcases List.mem_map.mp ho with ⟨x, hxf, rfl⟩
    exact hserne x (List.mem_filter.mp hxf).1

def bodyW1 : EmpBody :=
  ⟨some " Ann Lee ", some "annlee@gmail.com", some "Sales", some "Manager", JVal.jstr "100"⟩

def bodyW2 : EmpBody :=
  ⟨some "Ann Li", some "annlii@gmail.com", some "HR", some "Lead", JVal.jint 200⟩

/-- Witness for C2 on the empty store. -/
theorem crud_round_trip_witness :
    ∃ n1 n2 : Int,
      pyInt bodyW1.salary = some n1 ∧ 0 < n1 ∧ pyInt bodyW2.salary = some n2 ∧ 0 < n2 ∧
      create_employee ⟨[], [], 0⟩ "u" bodyW1 =
        (⟨201, RBody.msg "Employee Added"⟩,
         ⟨[], [] ++ [mkDoc ⟨[], [], 0⟩ "u" bodyW1 n1], 0 + 1⟩) ∧
      serialize (mkDoc ⟨[], [], 0⟩ "u" bodyW1 n1) ∈
        get_employees_list ⟨[], [] ++ [mkDoc ⟨[], [], 0⟩ "u" bodyW1 n1], 0 + 1⟩ "u" ∧
      update_employee ⟨[], [] ++ [mkDoc ⟨[], [], 0⟩ "u" bodyW1 n1], 0 + 1⟩ "u"
          (oidStr 0) bodyW2 =
        some (⟨200, RBody.msg "Updated"⟩,
              ⟨[], [] ++ [mkDoc ⟨[], [], 0⟩ "u" bodyW2 n2], 0 + 1⟩) ∧
      serialize (mkDoc ⟨[], [], 0⟩ "u" bodyW2 n2) ∈
        get_employees_list ⟨[], [] ++ [mkDoc ⟨[], [], 0⟩ "u" bodyW2 n2], 0 + 1⟩ "u" ∧
      (∀ o ∈ get_employees_list ⟨[], [] ++ [mkDoc ⟨[], [], 0⟩ "u" bodyW2 n2], 0 + 1⟩ "u",
        o.idStr = oidStr 0 → o = serialize (mkDoc ⟨[], [], 0⟩ "u" bodyW2 n2)) ∧
      delete_employee ⟨[], [] ++ [mkDoc ⟨[], [], 0⟩ "u" bodyW2 n2], 0 + 1⟩ "u" (oidStr 0) =
        some (⟨200, RBody.msg "Deleted"⟩, ⟨[], [], 0 + 1⟩) ∧
      (∀ o ∈ get_employees_list ⟨[], [], 0 + 1⟩ "u", o.idStr ≠ oidStr 0) := by
  exact crud_round_trip ⟨[], [], 0⟩ "u" bodyW1 bodyW2 (oidStr 0)
    (by simp) (by decide) (by decide) (by decide) (by decide) (by decide) (by decide)
    (by decide) (by decide) (by decide) (by decide) (by decide) (by decide) (by simp)
    (by decide)

end EmpCrud
